import Mathlib

/-!
Shallow embedding of the queuectl job-queue core (src/src/jobQueue.js and the
enqueue action of src/queuectl.js) and proofs about its operations.

The Supabase `jobs` table is modelled as a `List Job` in row order; timestamps
are `Int` milliseconds since the epoch (JavaScript `Date.getTime()` values).
Each operation of the `JobQueue` class becomes a pure function from the store
to the new store, with the current time and any generated id passed in
explicitly.  Conditional updates (`.update(...).eq(...).is(...)`) become
`condUpdate` with the guard the query builds; an unordered `.limit(1)` select
becomes `List.head?` of the filtered rows, and an ordered one becomes
`selectMinBy` (first row in table order among those with the minimal key,
matching an ORDER BY ... ASC LIMIT 1 whose tie order is unspecified).
-/

namespace QueueCtl

/-- A row of the `jobs` table (schema in the migration file: id is the primary
key, `command` is NOT NULL, the nullable columns are `Option`). -/
structure Job where
  id : String
  command : Option String
  state : String
  attempts : Nat
  max_retries : Nat
  created_at : Int
  updated_at : Int
  next_retry_at : Option Int
  error_message : Option String
  completed_at : Option Int
  locked_by : Option String
  locked_at : Option Int
  deriving Repr, DecidableEq

/-- Errors thrown by the JavaScript code (each constructor corresponds to one
`throw new Error(...)` site or database constraint rejection). -/
inductive QErr where
  /-- `Job ${jobId} not found` -/
  | notFound (id : String)
  /-- `Job ${jobId} is not in DLQ (state: ...)` -/
  | notInDLQ (id : String) (state : String)
  /-- insert rejected by the `jobs` primary-key constraint -/
  | duplicateId (id : String)
  /-- insert rejected by the `command text NOT NULL` constraint -/
  | nullCommand
  /-- the CLI enqueue action's `Job must have a "command" field` rejection -/
  | missingCommand
  deriving Repr, DecidableEq

/-- The enqueue request JSON: `{id?, command?, max_retries?}`. -/
structure JobRequest where
  id : Option String
  command : Option String
  max_retries : Option Nat
  deriving Repr, DecidableEq

/-- JavaScript truthiness of an optional string (`undefined` and `""` are
falsy). -/
def strTruthy : Option String → Bool
  | none => false
  | some s => ¬ s = ""

/-- JavaScript truthiness of an optional number (`undefined` and `0` are
falsy). -/
def natTruthy : Option Nat → Bool
  | none => false
  | some n => ¬ n = 0

/-- `supabase.from('jobs').update(f).eq/is(guard)`: rewrite every row matching
the guard. -/
def updateWhere (guard : Job → Bool) (f : Job → Job) (store : List Job) : List Job :=
  store.map (fun j => if guard j then f j else j)

/-- A guarded update followed by `.select().maybeSingle()`: returns the updated
row when some row matches the guard, `none` (and the unchanged store) when no
row does.  Row ids are unique (primary key), so at most one row matches the
guards the code uses. -/
def condUpdate (guard : Job → Bool) (f : Job → Job) (store : List Job) :
    Option Job × List Job :=
  match store.find? guard with
  | none => (none, store)
  | some j => (some (f j), updateWhere guard f store)

/-- Guard `.eq('id', jobId)` (used by the stale-reclamation update and by
`updateJobState`). -/
def idGuard (jobId : String) (j : Job) : Bool := j.id == jobId

/-- Guard `.eq('id', jobId).is('locked_by', null)` (classes 1 and 2 of
`acquireJobLock`). -/
def nullLockGuard (jobId : String) (j : Job) : Bool :=
  j.id == jobId && j.locked_by.isNone

/-- The row `enqueueJob(jobData)` builds: a falsy (`undefined`/`""`) id is
replaced by a fresh uuid, a falsy (`undefined`/`0`) max_retries by 3. -/
def enqueuedRow (req : JobRequest) (genId : String) (now : Int) : Job :=
  { id := if strTruthy req.id then req.id.getD genId else genId
    command := req.command
    state := "pending"
    attempts := 0
    max_retries := if natTruthy req.max_retries then req.max_retries.getD 3 else 3
    created_at := now
    updated_at := now
    next_retry_at := none
    error_message := none
    completed_at := none
    locked_by := none
    locked_at := none }

/-- `enqueueJob(jobData)`: build the row and insert it; the insert fails on a
duplicate primary key or a null command (schema constraints). -/
def enqueueJob (req : JobRequest) (genId : String) (now : Int) (store : List Job) :
    Except QErr Job × List Job :=
  let job := enqueuedRow req genId now
  if store.any (fun j => j.id == job.id) then (.error (.duplicateId job.id), store)
  else if job.command.isNone then (.error .nullCommand, store)
  else (.ok job, store ++ [job])

/-- The CLI `enqueue` action (queuectl.js): rejects a request whose `command`
is falsy before constructing the queue or touching the store. -/
def enqueueAction (req : JobRequest) (genId : String) (now : Int) (store : List Job) :
    Except QErr Job × List Job :=
  if strTruthy req.command then enqueueJob req genId now store
  else (.error .missingCommand, store)

/-- `getJob(jobId)`: `.select('*').eq('id', jobId).maybeSingle()`. -/
def getJob (jobId : String) (store : List Job) : Option Job :=
  store.find? (idGuard jobId)

/-- `updateJobState(jobId, state, additionalFields)`: set `state` and
`updated_at`, spread the additional fields (`extra`), on the row with the
given id; `.single()` errors when no row matches. -/
def updateJobState (jobId : String) (state : String) (extra : Job → Job)
    (now : Int) (store : List Job) : Except QErr Job × List Job :=
  let f := fun j => extra { j with state := state, updated_at := now }
  match store.find? (idGuard jobId) with
  | none => (.error (.notFound jobId), store)
  | some j => (.ok (f j), updateWhere (idGuard jobId) f store)

/-- The fields every lease-seizing update writes:
`locked_by = workerId, locked_at = now, state = 'processing', updated_at = now`. -/
def lockFields (workerId : String) (now : Int) (j : Job) : Job :=
  { j with locked_by := some workerId, locked_at := some now,
           state := "processing", updated_at := now }

/-- Class-1 candidate filter: `state = 'pending'` and `locked_by` null. -/
def pendingFree (j : Job) : Bool :=
  j.state == "pending" && j.locked_by.isNone

/-- Class-2 candidate filter: `state = 'failed'`, `next_retry_at` non-null and
`<= now`, `locked_by` null. -/
def retryReady (now : Int) (j : Job) : Bool :=
  j.state == "failed" &&
    (match j.next_retry_at with
     | some t => decide (t ≤ now)
     | none => false) &&
    j.locked_by.isNone

/-- Class-3 candidate filter: `state = 'processing'`, `locked_by` non-null,
`locked_at < now − 5 minutes` (the fixed staleness threshold). -/
def staleLease (now : Int) (j : Job) : Bool :=
  j.state == "processing" && !j.locked_by.isNone &&
    (match j.locked_at with
     | some t => decide (t < now - 5 * 60 * 1000)
     | none => false)

/-- `ORDER BY key ASC LIMIT 1`: the first row in table order among those with
the minimal key (the tie order of the SQL query is unspecified). -/
def selectMinBy (key : Job → Int) : List Job → Option Job
  | [] => none
  | j :: rest =>
    match selectMinBy key rest with
    | none => some j
    | some m => if key j ≤ key m then some j else some m

/-- The lease-seizing update of the stale-reclamation class: guarded only by
`.eq('id', jobId)`. -/
def class3LockUpdate (jobId workerId : String) (now : Int) (store : List Job) :
    Option Job × List Job :=
  condUpdate (idGuard jobId) (lockFields workerId now) store

/-- Third candidate class of `acquireJobLock`: an unordered `LIMIT 1` select
over stale `processing` leases, then the id-guarded lease seizure. -/
def acquireClass3 (workerId : String) (now : Int) (store : List Job) :
    Option Job × List Job :=
  match (store.filter (staleLease now)).head? with
  | none => (none, store)
  | some job =>
    match class3LockUpdate job.id workerId now store with
    | (some lj, store1) => (some lj, store1)
    | (none, store1) => (none, store1)

/-- Second candidate class of `acquireJobLock`: the elapsed `failed` job with
the soonest `next_retry_at`, claimed under the null-`locked_by` guard; on no
candidate or a lost claim, fall through to the stale class. -/
def acquireClass2 (workerId : String) (now : Int) (store : List Job) :
    Option Job × List Job :=
  match selectMinBy (fun j => j.next_retry_at.getD 0) (store.filter (retryReady now)) with
  | none => acquireClass3 workerId now store
  | some job =>
    match condUpdate (nullLockGuard job.id) (lockFields workerId now) store with
    | (some lj, store1) => (some lj, store1)
    | (none, store1) => acquireClass3 workerId now store1

/-- `acquireJobLock(workerId)`: first the oldest free `pending` job (FIFO by
`created_at`), claimed under the null-`locked_by` guard; on no candidate or a
lost claim, fall through to the retry class. -/
def acquireJobLock (workerId : String) (now : Int) (store : List Job) :
    Option Job × List Job :=
  match selectMinBy (fun j => j.created_at) (store.filter pendingFree) with
  | none => acquireClass2 workerId now store
  | some job =>
    match condUpdate (nullLockGuard job.id) (lockFields workerId now) store with
    | (some lj, store1) => (some lj, store1)
    | (none, store1) => acquireClass2 workerId now store1

/-- `releaseJobLock(jobId)`: clear the lease, touch `updated_at`, leave
everything else (the state included) alone. -/
def releaseJobLock (jobId : String) (now : Int) (store : List Job) : List Job :=
  updateWhere (idGuard jobId)
    (fun j => { j with locked_by := none, locked_at := none, updated_at := now }) store

/-- `markJobCompleted(jobId)`. -/
def markJobCompleted (jobId : String) (now : Int) (store : List Job) :
    Except QErr Job × List Job :=
  updateJobState jobId "completed"
    (fun j => { j with completed_at := some now, locked_by := none,
                       locked_at := none, error_message := none }) now store

/-- `markJobFailed(jobId, errorMessage, backoffBase = 2)`. -/
def markJobFailed (jobId errorMessage : String) (backoffBase : Nat) (now : Int)
    (store : List Job) : Except QErr Job × List Job :=
  match getJob jobId store with
  | none => (.error (.notFound jobId), store)
  | some job =>
    let newAttempts := job.attempts + 1
    if job.max_retries ≤ newAttempts then
      updateJobState jobId "dead"
        (fun j => { j with attempts := newAttempts, error_message := some errorMessage,
                           locked_by := none, locked_at := none, next_retry_at := none })
        now store
    else
      let delaySeconds : Nat := backoffBase ^ newAttempts
      let nextRetryAt : Int := now + (delaySeconds : Int) * 1000
      updateJobState jobId "failed"
        (fun j => { j with attempts := newAttempts, error_message := some errorMessage,
                           next_retry_at := some nextRetryAt,
                           locked_by := none, locked_at := none })
        now store

/-- `retryDLQJob(jobId)`: only a `dead` job may be requeued. -/
def retryDLQJob (jobId : String) (now : Int) (store : List Job) :
    Except QErr Job × List Job :=
  match getJob jobId store with
  | none => (.error (.notFound jobId), store)
  | some job =>
    if job.state == "dead" then
      updateJobState jobId "pending"
        (fun j => { j with attempts := 0, error_message := none, next_retry_at := none,
                           locked_by := none, locked_at := none })
        now store
    else (.error (.notInDLQ jobId job.state), store)

/-- The record `getJobStats` returns. -/
structure JobStats where
  pending : Nat
  processing : Nat
  completed : Nat
  failed : Nat
  dead : Nat
  total : Nat
  deriving Repr, DecidableEq

/-- One iteration of the `forEach` in `getJobStats`: `stats[job.state]++` when
`stats.hasOwnProperty(job.state)` — and the stats object's own properties are
the five buckets AND `total`, so a job whose state is the literal string
`"total"` increments `total`. -/
def statsBump (s : JobStats) (st : String) : JobStats :=
  if st = "pending" then { s with pending := s.pending + 1 }
  else if st = "processing" then { s with processing := s.processing + 1 }
  else if st = "completed" then { s with completed := s.completed + 1 }
  else if st = "failed" then { s with failed := s.failed + 1 }
  else if st = "dead" then { s with dead := s.dead + 1 }
  else if st = "total" then { s with total := s.total + 1 }
  else s

/-- `getJobStats()`: `total` starts at `data.length`, then the `forEach` bumps
the bucket owned by each row's state. -/
def getJobStats (store : List Job) : JobStats :=
  store.foldl (fun s j => statsBump s j.state)
    { pending := 0, processing := 0, completed := 0, failed := 0, dead := 0,
      total := store.length }

/-! ### Basic lemmas about the candidate filters and store primitives -/

lemma pendingFree_iff {j : Job} :
    pendingFree j = true ↔ j.state = "pending" ∧ j.locked_by = none := by
  simp [pendingFree, Option.isNone_iff_eq_none]

lemma retryReady_iff {now : Int} {j : Job} :
    retryReady now j = true ↔
      j.state = "failed" ∧ (∃ t, j.next_retry_at = some t ∧ t ≤ now) ∧
        j.locked_by = none := by
  cases h : j.next_retry_at <;>
    simp [retryReady, h, Option.isNone_iff_eq_none, and_assoc]

lemma staleLease_iff {now : Int} {j : Job} :
    staleLease now j = true ↔
      j.state = "processing" ∧ j.locked_by ≠ none ∧
        (∃ t, j.locked_at = some t ∧ t < now - 5 * 60 * 1000) := by
  cases h : j.locked_at <;>
    simp [staleLease, h, Option.isSome_iff_ne_none, and_assoc]

lemma selectMinBy_eq_none {key : Job → Int} {l : List Job} :
    selectMinBy key l = none ↔ l = [] := by
  cases l with
  | nil => simp [selectMinBy]
  | cons a rest =>
    cases hr : selectMinBy key rest
    · simp [selectMinBy, hr]
    · simp only [selectMinBy, hr]
      split <;> simp

lemma selectMinBy_mem {key : Job → Int} {l : List Job} {j : Job} :
    selectMinBy key l = some j → j ∈ l := by
  induction l generalizing j with
  | nil => intro h; simp [selectMinBy] at h
  | cons a rest ih =>
    intro h
    cases hr : selectMinBy key rest with
    | none =>
      simp only [selectMinBy, hr, Option.some.injEq] at h
      subst h
      exact List.mem_cons_self a rest
    | some m =>
      simp only [selectMinBy, hr] at h
      split at h <;> simp only [Option.some.injEq] at h <;> subst h
      · exact List.mem_cons_self a rest
      · exact List.mem_cons_of_mem a (ih hr)

lemma selectMinBy_min {key : Job → Int} {l : List Job} {j : Job} :
    selectMinBy key l = some j → ∀ x ∈ l, key j ≤ key x := by
  induction l generalizing j with
  | nil => intro h; simp [selectMinBy] at h
  | cons a rest ih =>
    intro h x hx
    cases hr : selectMinBy key rest with
    | none =>
      simp only [selectMinBy, hr, Option.some.injEq] at h
      subst h
      have hrest : rest = [] := selectMinBy_eq_none.mp hr
      subst hrest
      rcases List.mem_cons.mp hx with rfl | hx'
      · exact le_refl _
      · cases hx'
    | some m =>
      simp only [selectMinBy, hr] at h
      have hm := ih hr
      rcases List.mem_cons.mp hx with rfl | hx'
      · split at h <;> simp only [Option.some.injEq] at h <;> subst h
        · exact le_refl _
        · rename_i hcond
          omega
      · have hmx := hm x hx'
        split at h <;> simp only [Option.some.injEq] at h <;> subst h
        · rename_i hcond
          omega
        · exact hmx

/-- With unique ids, a guard that pins the id finds exactly the known row. -/
lemma find?_unique_id {store : List Job} {j : Job} (guard : Job → Bool)
    (hid : store.Pairwise (fun a b => a.id ≠ b.id))
    (hmem : j ∈ store) (hj : guard j = true)
    (hguard : ∀ x, guard x = true → x.id = j.id) :
    store.find? guard = some j := by
  induction store with
  | nil => cases hmem
  | cons a rest ih =>
    rcases List.mem_cons.mp hmem with rfl | hmem'
    · exact List.find?_cons_of_pos rest hj
    · have hpair := List.pairwise_cons.mp hid
      have hne : a.id ≠ j.id := hpair.1 j hmem'
      have hga : guard a = false := by
        cases hga : guard a with
        | false => rfl
        | true => exact absurd (hguard a hga) hne
      rw [List.find?_cons_of_neg rest (by simp [hga])]
      exact ih hpair.2 hmem'

lemma all_updateWhere {P : Job → Bool} {g : Job → Bool} {f : Job → Job}
    {store : List Job} (hf : ∀ j, P j = true → P (f j) = true)
    (h : store.all P = true) : (updateWhere g f store).all P = true := by
  simp only [updateWhere, List.all_eq_true, List.mem_map] at *
  rintro x ⟨j, hj, rfl⟩
  split
  · exact hf j (h j hj)
  · exact h j hj

lemma all_condUpdate_snd {P : Job → Bool} {g : Job → Bool} {f : Job → Job}
    {store : List Job} (hf : ∀ j, P (f j) = true)
    (h : store.all P = true) : ((condUpdate g f store).2).all P = true := by
  unfold condUpdate
  cases store.find? g
  · exact h
  · exact all_updateWhere (fun j _ => hf j) h

lemma nullLockGuard_id {jobId : String} {x : Job}
    (h : nullLockGuard jobId x = true) : x.id = jobId := by
  simp [nullLockGuard] at h
  exact h.1

lemma idGuard_id {jobId : String} {x : Job}
    (h : idGuard jobId x = true) : x.id = jobId := by
  simpa [idGuard] using h

lemma head?_mem {l : List Job} {a : Job} (h : l.head? = some a) : a ∈ l := by
  cases l with
  | nil => simp at h
  | cons b t =>
    simp only [List.head?, Option.some.injEq] at h
    subst h
    exact List.mem_cons_self b t

/-! ### Characterization of the three classes of `acquireJobLock` -/

lemma acquire_no_pending {workerId : String} {now : Int} {store : List Job}
    (h : ∀ j ∈ store, pendingFree j = false) :
    acquireJobLock workerId now store = acquireClass2 workerId now store := by
  have hf : store.filter pendingFree = [] :=
    List.filter_eq_nil_iff.mpr (fun a ha => by simp [h a ha])
  simp [acquireJobLock, hf, selectMinBy]

lemma acquireClass2_no_retry {workerId : String} {now : Int} {store : List Job}
    (h : ∀ j ∈ store, retryReady now j = false) :
    acquireClass2 workerId now store = acquireClass3 workerId now store := by
  have hf : store.filter (retryReady now) = [] :=
    List.filter_eq_nil_iff.mpr (fun a ha => by simp [h a ha])
  simp [acquireClass2, hf, selectMinBy]

lemma acquireClass3_no_stale {workerId : String} {now : Int} {store : List Job}
    (h : ∀ j ∈ store, staleLease now j = false) :
    acquireClass3 workerId now store = (none, store) := by
  have hf : store.filter (staleLease now) = [] :=
    List.filter_eq_nil_iff.mpr (fun a ha => by simp [h a ha])
  simp [acquireClass3, hf]

lemma acquire_pending_spec {workerId : String} {now : Int} {store : List Job} {job : Job}
    (hid : store.Pairwise (fun a b => a.id ≠ b.id))
    (hsel : selectMinBy (fun j => j.created_at) (store.filter pendingFree) = some job) :
    acquireJobLock workerId now store =
      (some (lockFields workerId now job),
       updateWhere (nullLockGuard job.id) (lockFields workerId now) store) := by
  have hmem := selectMinBy_mem hsel
  have hstore : job ∈ store := (List.mem_filter.mp hmem).1
  have hp : pendingFree job = true := (List.mem_filter.mp hmem).2
  have hguard : nullLockGuard job.id job = true := by
    simp [nullLockGuard, (pendingFree_iff.mp hp).2]
  have hfind : store.find? (nullLockGuard job.id) = some job :=
    find?_unique_id _ hid hstore hguard (fun x hx => nullLockGuard_id hx)
  simp [acquireJobLock, hsel, condUpdate, hfind]

lemma acquireClass2_retry_spec {workerId : String} {now : Int} {store : List Job} {job : Job}
    (hid : store.Pairwise (fun a b => a.id ≠ b.id))
    (hsel : selectMinBy (fun j => j.next_retry_at.getD 0)
      (store.filter (retryReady now)) = some job) :
    acquireClass2 workerId now store =
      (some (lockFields workerId now job),
       updateWhere (nullLockGuard job.id) (lockFields workerId now) store) := by
  have hmem := selectMinBy_mem hsel
  have hstore : job ∈ store := (List.mem_filter.mp hmem).1
  have hr : retryReady now job = true := (List.mem_filter.mp hmem).2
  have hguard : nullLockGuard job.id job = true := by
    simp [nullLockGuard, (retryReady_iff.mp hr).2.2]
  have hfind : store.find? (nullLockGuard job.id) = some job :=
    find?_unique_id _ hid hstore hguard (fun x hx => nullLockGuard_id hx)
  simp [acquireClass2, hsel, condUpdate, hfind]

lemma acquireClass3_stale_spec {workerId : String} {now : Int} {store : List Job} {job : Job}
    (hid : store.Pairwise (fun a b => a.id ≠ b.id))
    (hhead : (store.filter (staleLease now)).head? = some job) :
    acquireClass3 workerId now store =
      (some (lockFields workerId now job),
       updateWhere (idGuard job.id) (lockFields workerId now) store) := by
  have hmem := head?_mem hhead
  have hstore : job ∈ store := (List.mem_filter.mp hmem).1
  have hguard : idGuard job.id job = true := by simp [idGuard]
  have hfind : store.find? (idGuard job.id) = some job :=
    find?_unique_id _ hid hstore hguard (fun x hx => idGuard_id hx)
  simp [acquireClass3, class3LockUpdate, hhead, condUpdate, hfind]

/-! ### The declared invariant and which operations preserve which half -/

/-- First half of the spec's invariant: `lease_holder` (`locked_by`) is
non-null exactly on `processing` jobs. -/
def leaseInvB (j : Job) : Bool := j.locked_by.isSome == (j.state == "processing")

/-- Second half: `next_retry_at` is non-null exactly on `failed` jobs. -/
def retryInvB (j : Job) : Bool := j.next_retry_at.isSome == (j.state == "failed")

/-- Both halves of the invariant on one job. -/
def jobInvB (j : Job) : Bool := leaseInvB j && retryInvB j

/-- The invariant over the whole store. -/
def storeInv (store : List Job) : Bool := store.all jobInvB

lemma leaseInvB_lockFields (workerId : String) (now : Int) (j : Job) :
    leaseInvB (lockFields workerId now j) = true := by
  simp [leaseInvB, lockFields]

lemma all_updateJobState_snd {P : Job → Bool} {jobId state : String} {now : Int}
    {store : List Job} {extra : Job → Job}
    (hf : ∀ j : Job, P (extra { j with state := state, updated_at := now }) = true)
    (h : store.all P = true) :
    ((updateJobState jobId state extra now store).2).all P = true := by
  simp only [updateJobState]
  split
  · exact h
  · exact all_updateWhere (fun j _ => hf j) h

lemma acquireClass3_all_lease {workerId : String} {now : Int} {store : List Job}
    (h : store.all leaseInvB = true) :
    ((acquireClass3 workerId now store).2).all leaseInvB = true := by
  simp only [acquireClass3, class3LockUpdate]
  split
  · exact h
  · rename_i job hh
    have hall := @all_condUpdate_snd leaseInvB (idGuard job.id) (lockFields workerId now) store
      (fun x => leaseInvB_lockFields workerId now x) h
    split
    · rename_i lj s1 hcu
      rw [hcu] at hall
      exact hall
    · rename_i s1 hcu
      rw [hcu] at hall
      exact hall

lemma acquireClass2_all_lease {workerId : String} {now : Int} {store : List Job}
    (h : store.all leaseInvB = true) :
    ((acquireClass2 workerId now store).2).all leaseInvB = true := by
  simp only [acquireClass2]
  split
  · exact acquireClass3_all_lease h
  · rename_i job hsel
    have hall := @all_condUpdate_snd leaseInvB (nullLockGuard job.id) (lockFields workerId now) store
      (fun x => leaseInvB_lockFields workerId now x) h
    split
    · rename_i lj s1 hcu
      rw [hcu] at hall
      exact hall
    · rename_i s1 hcu
      rw [hcu] at hall
      exact acquireClass3_all_lease hall

lemma acquire_all_lease {workerId : String} {now : Int} {store : List Job}
    (h : store.all leaseInvB = true) :
    ((acquireJobLock workerId now store).2).all leaseInvB = true := by
  simp only [acquireJobLock]
  split
  · exact acquireClass2_all_lease h
  · rename_i job hsel
    have hall := @all_condUpdate_snd leaseInvB (nullLockGuard job.id) (lockFields workerId now) store
      (fun x => leaseInvB_lockFields workerId now x) h
    split
    · rename_i lj s1 hcu
      rw [hcu] at hall
      exact hall
    · rename_i s1 hcu
      rw [hcu] at hall
      exact acquireClass2_all_lease hall

lemma enqueueJob_inv {req : JobRequest} {genId : String} {now : Int} {store : List Job}
    (h : storeInv store = true) : storeInv (enqueueJob req genId now store).2 = true := by
  simp only [enqueueJob]
  split
  · exact h
  · split
    · exact h
    · simp only [storeInv] at h ⊢
      rw [List.all_append, h]
      simp [jobInvB, leaseInvB, retryInvB, enqueuedRow]

lemma markJobFailed_inv {jobId msg : String} {base : Nat} {now : Int} {store : List Job}
    (h : storeInv store = true) : storeInv (markJobFailed jobId msg base now store).2 = true := by
  simp only [markJobFailed]
  split
  · exact h
  · split
    · exact all_updateJobState_snd (fun j => by simp [jobInvB, leaseInvB, retryInvB]) h
    · exact all_updateJobState_snd (fun j => by simp [jobInvB, leaseInvB, retryInvB]) h

lemma retryDLQJob_inv {jobId : String} {now : Int} {store : List Job}
    (h : storeInv store = true) : storeInv (retryDLQJob jobId now store).2 = true := by
  simp only [retryDLQJob]
  split
  · exact h
  · split
    · exact all_updateJobState_snd (fun j => by simp [jobInvB, leaseInvB, retryInvB]) h
    · exact h

lemma markJobCompleted_all_lease {jobId : String} {now : Int} {store : List Job}
    (h : store.all leaseInvB = true) :
    ((markJobCompleted jobId now store).2).all leaseInvB = true := by
  unfold markJobCompleted
  exact all_updateJobState_snd (fun j => by simp [leaseInvB]) h

lemma releaseJobLock_all_retry {jobId : String} {now : Int} {store : List Job}
    (h : store.all retryInvB = true) :
    (releaseJobLock jobId now store).all retryInvB = true := by
  unfold releaseJobLock
  exact all_updateWhere (fun j hj => by simpa [retryInvB] using hj) h

/-! ### Concrete jobs for witnesses and counterexamples -/

/-- A fresh pending job as `enqueueJob` inserts it. -/
def jobA : Job :=
  { id := "job-1", command := some "echo hello", state := "pending", attempts := 0,
    max_retries := 3, created_at := 0, updated_at := 0, next_retry_at := none,
    error_message := none, completed_at := none, locked_by := none, locked_at := none }

/-- A dead job (retries exhausted). -/
def jobDead : Job :=
  { jobA with state := "dead", attempts := 3, error_message := some "boom" }

/-- A processing job holding a lease. -/
def jobProc : Job :=
  { jobA with state := "processing", locked_by := some "w1", locked_at := some 10, attempts := 1 }

/-- A concrete enqueue request with a falsy id and falsy max_retries. -/
def reqW : JobRequest := { id := some "", command := some "echo hi", max_retries := some 0 }

/-- The row `enqueueJob` builds for `reqW`. -/
def rowW : Job := enqueuedRow reqW "gen-1" 7

/-! ### Claims -/

/-- Claim C1: for every job and every failure outcome, `markJobFailed`
increments `attempts` by exactly one; if the incremented count reaches
`max_retries` the job becomes `dead` with `next_retry_at = null` and the lease
cleared; otherwise it becomes `failed` with `next_retry_at = now +
backoff_base ^ attempts'` seconds, the error message set, and the lease
cleared. -/
theorem C1_markJobFailed_retry_policy (jobId errorMessage : String) (backoffBase : Nat)
    (now : Int) (store : List Job) (job : Job)
    (h : getJob jobId store = some job) :
    ∃ j' store', markJobFailed jobId errorMessage backoffBase now store = (.ok j', store') ∧
      j'.attempts = job.attempts + 1 ∧
      j'.error_message = some errorMessage ∧
      j'.locked_by = none ∧ j'.locked_at = none ∧
      (job.max_retries ≤ job.attempts + 1 →
        j'.state = "dead" ∧ j'.next_retry_at = none) ∧
      (job.attempts + 1 < job.max_retries →
        j'.state = "failed" ∧
        j'.next_retry_at = some (now + ((backoffBase ^ (job.attempts + 1) : Nat) : Int) * 1000)) := by
  have hfind : store.find? (idGuard jobId) = some job := by simpa [getJob] using h
  by_cases hc : job.max_retries ≤ job.attempts + 1
  · refine ⟨_, _,
      by simp [markJobFailed, getJob, updateJobState, hfind, hc]; exact ⟨rfl, rfl⟩,
      ?_, ?_, ?_, ?_, ?_, ?_⟩
    · simp
    · simp
    · simp
    · simp
    · intro _
      exact ⟨rfl, rfl⟩
    · intro hlt
      exact absurd hc (by omega)
  · refine ⟨_, _,
      by simp [markJobFailed, getJob, updateJobState, hfind, hc]; exact ⟨rfl, rfl⟩,
      ?_, ?_, ?_, ?_, ?_, ?_⟩
    · simp
    · simp
    · simp
    · simp
    · intro hge
      exact absurd hge hc
    · intro _
      exact ⟨rfl, by simp⟩

/-- Witness for C1 at a concrete store: failing `job-1` (0 attempts so far,
3 max retries) yields a `failed` job with one attempt and a 2-second backoff. -/
theorem C1_markJobFailed_retry_policy_witness :
    getJob "job-1" [jobA] = some jobA ∧
    ∃ j' store', markJobFailed "job-1" "boom" 2 1000 [jobA] = (.ok j', store') ∧
      j'.attempts = jobA.attempts + 1 ∧
      j'.error_message = some "boom" ∧
      j'.locked_by = none ∧ j'.locked_at = none ∧
      (jobA.max_retries ≤ jobA.attempts + 1 →
        j'.state = "dead" ∧ j'.next_retry_at = none) ∧
      (jobA.attempts + 1 < jobA.max_retries →
        j'.state = "failed" ∧
        j'.next_retry_at = some (1000 + ((2 ^ (jobA.attempts + 1) : Nat) : Int) * 1000)) :=
  ⟨rfl, C1_markJobFailed_retry_policy "job-1" "boom" 2 1000 [jobA] jobA rfl⟩

/-- Claim C6: `retryDLQJob` on a `dead` job yields a pending job with zeroed
attempts, no error, no retry time and no lease; on an existing job in any
other state it raises the not-in-DLQ conflict error and returns the store
untouched. -/
theorem C6_retryDLQJob_roundtrip (jobId : String) (now : Int) (store : List Job) (job : Job)
    (h : getJob jobId store = some job) :
    (job.state = "dead" →
      ∃ j' store', retryDLQJob jobId now store = (.ok j', store') ∧
        j'.state = "pending" ∧ j'.attempts = 0 ∧ j'.error_message = none ∧
        j'.next_retry_at = none ∧ j'.locked_by = none ∧ j'.locked_at = none) ∧
    (job.state ≠ "dead" →
      retryDLQJob jobId now store = (.error (.notInDLQ jobId job.state), store)) := by
  have hfind : store.find? (idGuard jobId) = some job := by simpa [getJob] using h
  constructor
  · intro hdead
    refine ⟨_, _,
      by simp [retryDLQJob, getJob, updateJobState, hfind, hdead]; exact ⟨rfl, rfl⟩,
      ?_, ?_, ?_, ?_, ?_, ?_⟩
    all_goals simp
  · intro hne
    simp [retryDLQJob, getJob, hfind, hne]

/-- Witness for C6: retrying a concrete dead job. -/
theorem C6_retryDLQJob_roundtrip_witness :
    getJob "job-1" [jobDead] = some jobDead ∧
    (∃ j' store',
      retryDLQJob "job-1" 50 [jobDead] = (.ok j', store') ∧
      j'.state = "pending" ∧ j'.attempts = 0 ∧ j'.error_message = none ∧
      j'.next_retry_at = none ∧ j'.locked_by = none ∧ j'.locked_at = none) :=
  ⟨rfl,
    (C6_retryDLQJob_roundtrip "job-1" 50 [jobDead] jobDead rfl).1 rfl⟩

/-- Claim C7: on a successful execution outcome the job becomes `completed`
with `completed_at = now`, a cleared error message and a cleared lease, and
the attempts counter is unchanged. -/
theorem C7_markJobCompleted_success (jobId : String) (now : Int) (store : List Job)
    (job : Job) (h : getJob jobId store = some job) :
    ∃ j' store', markJobCompleted jobId now store = (.ok j', store') ∧
      j'.state = "completed" ∧ j'.completed_at = some now ∧ j'.error_message = none ∧
      j'.locked_by = none ∧ j'.locked_at = none ∧ j'.attempts = job.attempts := by
  have hfind : store.find? (idGuard jobId) = some job := by simpa [getJob] using h
  refine ⟨_, _,
    by simp [markJobCompleted, updateJobState, hfind]; exact ⟨rfl, rfl⟩,
    ?_, ?_, ?_, ?_, ?_, ?_⟩
  all_goals simp

/-- Witness for C7 at a concrete processing job. -/
theorem C7_markJobCompleted_success_witness :
    getJob "job-1" [jobProc] = some jobProc ∧
    ∃ j' store',
      markJobCompleted "job-1" 99 [jobProc] = (.ok j', store') ∧
      j'.state = "completed" ∧ j'.completed_at = some 99 ∧ j'.error_message = none ∧
      j'.locked_by = none ∧ j'.locked_at = none ∧ j'.attempts = jobProc.attempts :=
  ⟨rfl, C7_markJobCompleted_success "job-1" 99 [jobProc] jobProc rfl⟩

/-- Claim C8: an enqueue request missing the command field is rejected by the
CLI action before any store write; the store is returned unchanged. -/
theorem C8_enqueue_missing_command_rejected (req : JobRequest) (genId : String)
    (now : Int) (store : List Job) (h : req.command = none) :
    enqueueAction req genId now store = (.error .missingCommand, store) := by
  simp [enqueueAction, strTruthy, h]

/-- Witness for C8 at a concrete command-less request and non-empty store. -/
theorem C8_enqueue_missing_command_rejected_witness :
    ({ id := some "job-9", command := none, max_retries := some 2 } : JobRequest).command
      = none ∧
    enqueueAction { id := some "job-9", command := none, max_retries := some 2 }
      "gen" 5 [jobA] = (.error .missingCommand, [jobA]) :=
  ⟨rfl, C8_enqueue_missing_command_rejected _ "gen" 5 [jobA] rfl⟩

/-- Claim C9: every job created by `enqueueJob` starts `pending` with 0
attempts; `max_retries` is the requested value when truthy and 3 otherwise
(so a requested 0 silently becomes 3), and an empty-string id is silently
replaced by a freshly generated id. -/
theorem C9_enqueueJob_defaults (req : JobRequest) (genId : String) (now : Int)
    (store : List Job) (j : Job) (store' : List Job)
    (h : enqueueJob req genId now store = (.ok j, store')) :
    j.state = "pending" ∧ j.attempts = 0 ∧
    (natTruthy req.max_retries = true → some j.max_retries = req.max_retries) ∧
    (natTruthy req.max_retries = false → j.max_retries = 3) ∧
    (req.max_retries = some 0 → j.max_retries = 3) ∧
    (req.id = some "" → j.id = genId) := by
  have hj : j = enqueuedRow req genId now := by
    simp only [enqueueJob] at h
    split at h
    · simp at h
    · split at h
      · simp at h
      · simp only [Prod.mk.injEq, Except.ok.injEq] at h
        exact h.1.symm
  subst hj
  refine ⟨rfl, rfl, ?_, ?_, ?_, ?_⟩
  · intro ht
    cases hm : req.max_retries with
    | none => rw [hm] at ht; simp [natTruthy] at ht
    | some n =>
      rw [hm] at ht
      simp [enqueuedRow, hm, ht]
  · intro hf
    simp [enqueuedRow, hf]
  · intro h0
    simp [enqueuedRow, h0, natTruthy]
  · intro hid
    simp [enqueuedRow, hid, strTruthy]

/-- Witness for C9: enqueueing with an empty id and `max_retries = 0` yields a
pending job with 0 attempts, `max_retries = 3` and the generated id. -/
theorem C9_enqueueJob_defaults_witness :
    enqueueJob reqW "gen-1" 7 [] = (.ok rowW, [rowW]) ∧
    (rowW.state = "pending" ∧ rowW.attempts = 0 ∧
     (natTruthy reqW.max_retries = true → some rowW.max_retries = reqW.max_retries) ∧
     (natTruthy reqW.max_retries = false → rowW.max_retries = 3) ∧
     (reqW.max_retries = some 0 → rowW.max_retries = 3) ∧
     (reqW.id = some "" → rowW.id = "gen-1")) :=
  ⟨by rfl, C9_enqueueJob_defaults reqW "gen-1" 7 [] rowW [rowW] (by rfl)⟩

/-- A stale-lease snapshot as the class-3 candidate read returns it. -/
def jobStaleSnap : Job :=
  { jobA with id := "stale-1", state := "processing", locked_by := some "w0", locked_at := some 100000 }

/-- The same row after a concurrent change (lease renewed at 999000). -/
def jobStaleChanged : Job := { jobStaleSnap with locked_at := some 999000 }

/-- Claim C2 counterexample: the stale-candidate read of the old store returns
the snapshot, the row then changes (its lease is renewed), yet the
lease-seizing update still applies to the changed row — the update is guarded
by the id alone, not by a snapshot match. -/
theorem C2_counterexample_seizure_ignores_snapshot :
    ((([jobStaleSnap] : List Job).filter (staleLease 1000000)).head? = some jobStaleSnap) ∧
    jobStaleChanged.id = jobStaleSnap.id ∧ jobStaleChanged ≠ jobStaleSnap ∧
    (class3LockUpdate jobStaleSnap.id "w1" 1000000 [jobStaleChanged]).1 =
      some (lockFields "w1" 1000000 jobStaleChanged) := by
  exact ⟨by decide, by decide, by decide, by decide⟩

/-- Claim C2 amended: the class-3 lease-seizing update is guarded only by the
job id: it transfers the lease on whichever row currently bears the
candidate's id, whatever that row's other fields now hold. -/
theorem C2_amended_seizure_guarded_by_id_only (jobId workerId : String) (now : Int)
    (store : List Job) (h : ∃ j ∈ store, j.id = jobId) :
    ∃ j ∈ store, j.id = jobId ∧
      (class3LockUpdate jobId workerId now store).1 = some (lockFields workerId now j) := by
  cases hf : store.find? (idGuard jobId) with
  | none =>
    exfalso
    obtain ⟨j, hj, hjid⟩ := h
    have := List.find?_eq_none.mp hf j hj
    simp [idGuard, hjid] at this
  | some j =>
    have hmem := List.mem_of_find?_eq_some hf
    have hidj : j.id = jobId := idGuard_id (List.find?_some hf)
    exact ⟨j, hmem, hidj, by simp [class3LockUpdate, condUpdate, hf]⟩

/-- Witness for the amended C2 at the changed row. -/
theorem C2_amended_seizure_guarded_by_id_only_witness :
    (∃ j ∈ ([jobStaleChanged] : List Job), j.id = "stale-1") ∧
    ∃ j ∈ ([jobStaleChanged] : List Job), j.id = "stale-1" ∧
      (class3LockUpdate "stale-1" "w1" 1000000 [jobStaleChanged]).1 =
        some (lockFields "w1" 1000000 j) :=
  ⟨⟨jobStaleChanged, by simp, by decide⟩,
   C2_amended_seizure_guarded_by_id_only "stale-1" "w1" 1000000 [jobStaleChanged]
     ⟨jobStaleChanged, by simp, by decide⟩⟩

/-- Claim C3: `acquire` follows the three-class priority in strict order,
first match wins — oldest free pending job first, then the elapsed failed job
with the soonest retry time, then a stale processing lease, and `none` when
nothing is claimable. -/
theorem C3_acquire_priority (workerId : String) (now : Int) (store : List Job)
    (hid : store.Pairwise (fun a b => a.id ≠ b.id)) :
    ((∃ j ∈ store, pendingFree j = true) →
      ∃ j ∈ store, pendingFree j = true ∧
        (∀ k ∈ store, pendingFree k = true → j.created_at ≤ k.created_at) ∧
        (acquireJobLock workerId now store).1 = some (lockFields workerId now j)) ∧
    ((∀ j ∈ store, pendingFree j = false) →
      (∃ j ∈ store, retryReady now j = true) →
      ∃ j ∈ store, retryReady now j = true ∧
        (∀ k ∈ store, retryReady now k = true →
          ∃ t u, j.next_retry_at = some t ∧ k.next_retry_at = some u ∧ t ≤ u) ∧
        (acquireJobLock workerId now store).1 = some (lockFields workerId now j)) ∧
    ((∀ j ∈ store, pendingFree j = false) →
      (∀ j ∈ store, retryReady now j = false) →
      (∃ j ∈ store, staleLease now j = true) →
      ∃ j ∈ store, staleLease now j = true ∧
        (acquireJobLock workerId now store).1 = some (lockFields workerId now j)) ∧
    ((∀ j ∈ store, pendingFree j = false) →
      (∀ j ∈ store, retryReady now j = false) →
      (∀ j ∈ store, staleLease now j = false) →
      acquireJobLock workerId now store = (none, store)) := by
  refine ⟨?_, ?_, ?_, ?_⟩
  · rintro ⟨j0, hj0, hj0p⟩
    cases hsel : selectMinBy (fun j => j.created_at) (store.filter pendingFree) with
    | none =>
      exfalso
      have hemp := selectMinBy_eq_none.mp hsel
      have := List.filter_eq_nil_iff.mp hemp j0 hj0
      simp [hj0p] at this
    | some job =>
      have heq := @acquire_pending_spec workerId now store job hid hsel
      have hmem := selectMinBy_mem hsel
      refine ⟨job, (List.mem_filter.mp hmem).1, (List.mem_filter.mp hmem).2, ?_, by rw [heq]⟩
      intro k hk hkp
      exact selectMinBy_min hsel k (List.mem_filter.mpr ⟨hk, hkp⟩)
  · intro hp
    rintro ⟨j0, hj0, hj0r⟩
    have hstep := @acquire_no_pending workerId now store hp
    cases hsel : selectMinBy (fun j => j.next_retry_at.getD 0)
        (store.filter (retryReady now)) with
    | none =>
      exfalso
      have hemp := selectMinBy_eq_none.mp hsel
      have := List.filter_eq_nil_iff.mp hemp j0 hj0
      simp [hj0r] at this
    | some job =>
      have heq := @acquireClass2_retry_spec workerId now store job hid hsel
      have hmem := selectMinBy_mem hsel
      have hjr : retryReady now job = true := (List.mem_filter.mp hmem).2
      obtain ⟨-, ⟨t, ht, -⟩, -⟩ := retryReady_iff.mp hjr
      refine ⟨job, (List.mem_filter.mp hmem).1, hjr, ?_, by rw [hstep, heq]⟩
      intro k hk hkr
      obtain ⟨-, ⟨u, hu, -⟩, -⟩ := retryReady_iff.mp hkr
      refine ⟨t, u, ht, hu, ?_⟩
      have hminle := selectMinBy_min hsel k (List.mem_filter.mpr ⟨hk, hkr⟩)
      simpa [ht, hu] using hminle
  · intro hp hr
    rintro ⟨j0, hj0, hj0s⟩
    have hstep1 := @acquire_no_pending workerId now store hp
    have hstep2 := @acquireClass2_no_retry workerId now store hr
    cases hhead : (store.filter (staleLease now)).head? with
    | none =>
      exfalso
      have hemp : store.filter (staleLease now) = [] := by
        cases hfl : store.filter (staleLease now)
        · rfl
        · rw [hfl] at hhead
          simp at hhead
      have := List.filter_eq_nil_iff.mp hemp j0 hj0
      simp [hj0s] at this
    | some job =>
      have heq := @acquireClass3_stale_spec workerId now store job hid hhead
      have hmem := head?_mem hhead
      exact ⟨job, (List.mem_filter.mp hmem).1, (List.mem_filter.mp hmem).2,
        by rw [hstep1, hstep2, heq]⟩
  · intro hp hr hs
    rw [acquire_no_pending hp, acquireClass2_no_retry hr, acquireClass3_no_stale hs]

/-- Witness for C3 at a one-job store: the pending job is claimed. -/
theorem C3_acquire_priority_witness :
    ([jobA] : List Job).Pairwise (fun a b => a.id ≠ b.id) ∧
    (∃ j ∈ ([jobA] : List Job), pendingFree j = true ∧
      (∀ k ∈ ([jobA] : List Job), pendingFree k = true → j.created_at ≤ k.created_at) ∧
      (acquireJobLock "w1" 1000 [jobA]).1 = some (lockFields "w1" 1000 j)) :=
  ⟨by simp,
   (C3_acquire_priority "w1" 1000 [jobA] (by simp)).1 ⟨jobA, by simp, by decide⟩⟩

/-- A stale processing job whose lease is newer than `jobStaleOld`'s. -/
def jobStaleNew : Job :=
  { jobA with id := "stale-a", state := "processing", locked_by := some "w7", locked_at := some 600000 }

/-- A stale processing job with the oldest lease of the two. -/
def jobStaleOld : Job :=
  { jobA with id := "stale-b", state := "processing", locked_by := some "w8", locked_at := some 100000 }

/-- Claim C4 counterexample: with two stale leases (ages 400s and 900s past
the threshold), `acquire` claims the first row returned, whose lease (600000)
is NOT the oldest — the stale-lease query has no ordering clause. -/
theorem C4_counterexample_not_oldest_lease_first :
    staleLease 1000000 jobStaleNew = true ∧
    staleLease 1000000 jobStaleOld = true ∧
    jobStaleNew.locked_at = some 600000 ∧ jobStaleOld.locked_at = some 100000 ∧
    (acquireJobLock "w1" 1000000 [jobStaleNew, jobStaleOld]).1 =
      some (lockFields "w1" 1000000 jobStaleNew) := by
  exact ⟨by decide, by decide, by decide, by decide, by decide⟩

/-- Claim C4 amended: when `acquire` reaches the third class it claims the
first returned `processing` row whose lease age strictly exceeds the 5-minute
threshold (the query is unordered, so not necessarily the oldest lease),
regardless of the current holder; rows below the threshold are never selected
in this class, and with no stale row `acquire` returns none. -/
theorem C4_amended_stale_class (workerId : String) (now : Int) (store : List Job)
    (hid : store.Pairwise (fun a b => a.id ≠ b.id))
    (hp : ∀ j ∈ store, pendingFree j = false)
    (hr : ∀ j ∈ store, retryReady now j = false) :
    ((store.filter (staleLease now)).head? = none →
      acquireJobLock workerId now store = (none, store)) ∧
    (∀ j, (store.filter (staleLease now)).head? = some j →
      j.state = "processing" ∧ j.locked_by ≠ none ∧
      (∃ t, j.locked_at = some t ∧ t < now - 5 * 60 * 1000) ∧
      (acquireJobLock workerId now store).1 = some (lockFields workerId now j)) := by
  have hstep1 := @acquire_no_pending workerId now store hp
  have hstep2 := @acquireClass2_no_retry workerId now store hr
  constructor
  · intro hhead
    have hemp : store.filter (staleLease now) = [] := by
      cases hfl : store.filter (staleLease now)
      · rfl
      · rw [hfl] at hhead
        simp at hhead
    have hnone : ∀ j ∈ store, staleLease now j = false := by
      intro j hj
      cases hsl : staleLease now j
      · rfl
      · exact absurd (List.mem_filter.mpr ⟨hj, hsl⟩) (by simp [hemp])
    rw [hstep1, hstep2, acquireClass3_no_stale hnone]
  · intro j hhead
    have hmem := head?_mem hhead
    have hstale := (List.mem_filter.mp hmem).2
    obtain ⟨h1, h2, h3⟩ := staleLease_iff.mp hstale
    exact ⟨h1, h2, h3,
      by rw [hstep1, hstep2, @acquireClass3_stale_spec workerId now store j hid hhead]⟩

/-- Witness for the amended C4 at a one-stale-job store. -/
theorem C4_amended_stale_class_witness :
    (([jobStaleNew] : List Job).filter (staleLease 1000000)).head? = some jobStaleNew ∧
    (jobStaleNew.state = "processing" ∧ jobStaleNew.locked_by ≠ none ∧
      (∃ t, jobStaleNew.locked_at = some t ∧ t < 1000000 - 5 * 60 * 1000) ∧
      (acquireJobLock "w1" 1000000 [jobStaleNew]).1 =
        some (lockFields "w1" 1000000 jobStaleNew)) :=
  ⟨by decide,
   (C4_amended_stale_class "w1" 1000000 [jobStaleNew] (by simp) (by decide) (by decide)).2
     jobStaleNew (by decide)⟩

/-- A failed job whose retry time has elapsed. -/
def jobRetry : Job :=
  { jobA with id := "retry-1", state := "failed", next_retry_at := some 500, error_message := some "x", attempts := 1 }

/-- Claim C5 counterexample: the invariant holds of a store with one elapsed
failed job, and acquiring it (class 2) makes the job `processing` while
leaving `next_retry_at` set — the invariant does not survive `acquire`. -/
theorem C5_counterexample_acquire_breaks_invariant :
    storeInv [jobRetry] = true ∧
    storeInv (acquireJobLock "w1" 1000000 [jobRetry]).2 = false := by
  exact ⟨by decide, by decide⟩

/-- Claim C5 amended: `enqueueJob`, `markJobFailed` and `retryDLQJob` preserve
both halves of the invariant; `markJobCompleted` and `acquireJobLock`
preserve the lease half (`locked_by` non-null iff `processing`) but not the
retry half; `releaseJobLock` preserves the retry half (`next_retry_at`
non-null iff `failed`) but not the lease half. -/
theorem C5_amended_invariant_preservation :
    (∀ (req : JobRequest) (genId : String) (now : Int) (store : List Job),
      storeInv store = true → storeInv (enqueueJob req genId now store).2 = true) ∧
    (∀ (jobId msg : String) (base : Nat) (now : Int) (store : List Job),
      storeInv store = true → storeInv (markJobFailed jobId msg base now store).2 = true) ∧
    (∀ (jobId : String) (now : Int) (store : List Job),
      storeInv store = true → storeInv (retryDLQJob jobId now store).2 = true) ∧
    (∀ (jobId : String) (now : Int) (store : List Job),
      store.all leaseInvB = true →
        ((markJobCompleted jobId now store).2).all leaseInvB = true) ∧
    (∀ (workerId : String) (now : Int) (store : List Job),
      store.all leaseInvB = true →
        ((acquireJobLock workerId now store).2).all leaseInvB = true) ∧
    (∀ (jobId : String) (now : Int) (store : List Job),
      store.all retryInvB = true →
        (releaseJobLock jobId now store).all retryInvB = true) :=
  ⟨fun _ _ _ _ h => enqueueJob_inv h,
   fun _ _ _ _ _ h => markJobFailed_inv h,
   fun _ _ _ h => retryDLQJob_inv h,
   fun _ _ _ h => markJobCompleted_all_lease h,
   fun _ _ _ h => acquire_all_lease h,
   fun _ _ _ h => releaseJobLock_all_retry h⟩

/-- Witness for the amended C5 at concrete stores. -/
theorem C5_amended_invariant_preservation_witness :
    storeInv [jobProc] = true ∧
    storeInv (markJobFailed "job-1" "boom" 2 1000 [jobProc]).2 = true ∧
    ([jobProc] : List Job).all retryInvB = true ∧
    (releaseJobLock "job-1" 77 [jobProc]).all retryInvB = true :=
  ⟨by decide,
   C5_amended_invariant_preservation.2.1 "job-1" "boom" 2 1000 [jobProc] (by decide),
   by decide,
   C5_amended_invariant_preservation.2.2.2.2.2 "job-1" 77 [jobProc] (by decide)⟩

/-! ### Stats counting lemmas -/

lemma getJobStats_foldl (l : List Job) (s : JobStats) :
    l.foldl (fun s j => statsBump s j.state) s =
      { pending := s.pending + l.countP (fun j => j.state == "pending"),
        processing := s.processing + l.countP (fun j => j.state == "processing"),
        completed := s.completed + l.countP (fun j => j.state == "completed"),
        failed := s.failed + l.countP (fun j => j.state == "failed"),
        dead := s.dead + l.countP (fun j => j.state == "dead"),
        total := s.total + l.countP (fun j => j.state == "total") } := by
  induction l generalizing s with
  | nil => simp
  | cons a rest ih =>
    rw [List.foldl_cons, ih]
    clear ih
    simp only [List.countP_cons]
    unfold statsBump
    split_ifs with h1 h2 h3 h4 h5 h6 <;>
      simp_all [JobStats.mk.injEq] <;> omega

lemma getJobStats_eq (store : List Job) :
    getJobStats store =
      { pending := store.countP (fun j => j.state == "pending"),
        processing := store.countP (fun j => j.state == "processing"),
        completed := store.countP (fun j => j.state == "completed"),
        failed := store.countP (fun j => j.state == "failed"),
        dead := store.countP (fun j => j.state == "dead"),
        total := store.length + store.countP (fun j => j.state == "total") } := by
  unfold getJobStats
  rw [getJobStats_foldl]
  simp

lemma countP_states_sum (l : List Job)
    (h5 : ∀ j ∈ l, j.state = "pending" ∨ j.state = "processing" ∨ j.state = "completed" ∨
      j.state = "failed" ∨ j.state = "dead") :
    l.countP (fun j => j.state == "pending") + l.countP (fun j => j.state == "processing") +
      l.countP (fun j => j.state == "completed") + l.countP (fun j => j.state == "failed") +
      l.countP (fun j => j.state == "dead") = l.length := by
  induction l with
  | nil => simp
  | cons a rest ih =>
    have ha := h5 a (List.mem_cons_self a rest)
    have ih2 := ih (fun j hj => h5 j (List.mem_cons_of_mem a hj))
    simp only [List.countP_cons, List.length_cons]
    rcases ha with h | h | h | h | h <;> simp [h] <;> omega

/-- A job whose state is the literal string `"total"` (not one of the five
documented states, but representable in the stats function's input). -/
def jobTotalState : Job := { jobA with id := "weird-1", state := "total" }

/-- Claim C10 counterexample: a store whose single job carries the state
string `"total"` is reported with `total = 2`, not the number of jobs (1) —
`total` is an own property of the stats record, so the `forEach` bumps it. -/
theorem C10_counterexample_total_state :
    ¬ (getJobStats [jobTotalState]).total = ([jobTotalState] : List Job).length := by
  decide

/-- Claim C10 amended: for every store in which no job's state is the literal
string `"total"`, `total` is the number of jobs and each bucket counts the
jobs in that state; when every state is among the five documented ones the
five buckets sum exactly to `total` (any other unrecognized state is counted
in `total` but in no bucket). -/
theorem C10_amended_stats_counts (store : List Job)
    (h : ∀ j ∈ store, j.state ≠ "total") :
    (getJobStats store).total = store.length ∧
    (getJobStats store).pending = store.countP (fun j => j.state == "pending") ∧
    (getJobStats store).processing = store.countP (fun j => j.state == "processing") ∧
    (getJobStats store).completed = store.countP (fun j => j.state == "completed") ∧
    (getJobStats store).failed = store.countP (fun j => j.state == "failed") ∧
    (getJobStats store).dead = store.countP (fun j => j.state == "dead") ∧
    ((∀ j ∈ store, j.state = "pending" ∨ j.state = "processing" ∨ j.state = "completed" ∨
        j.state = "failed" ∨ j.state = "dead") →
      (getJobStats store).pending + (getJobStats store).processing +
        (getJobStats store).completed + (getJobStats store).failed +
        (getJobStats store).dead = (getJobStats store).total) := by
  have hzero : store.countP (fun j => j.state == "total") = 0 := by
    rw [List.countP_eq_zero]
    intro j hj
    simpa using h j hj
  rw [getJobStats_eq]
  refine ⟨by simp [hzero], by simp, by simp, by simp, by simp, by simp, ?_⟩
  intro h5
  simpa [hzero] using countP_states_sum store h5

/-- Witness for the amended C10 at a concrete two-job store. -/
theorem C10_amended_stats_counts_witness :
    (∀ j ∈ ([jobA, jobDead] : List Job), j.state ≠ "total") ∧
    (getJobStats [jobA, jobDead]).total = ([jobA, jobDead] : List Job).length :=
  ⟨by decide, (C10_amended_stats_counts [jobA, jobDead] (by decide)).1⟩

end QueueCtl
